import Mathlib

/-!
Verification of the billymaster-api backend (src/server.js) against its
natural-language specification.

The server is an Express application whose handlers issue Supabase store
calls and post-process the returned joined rows in JavaScript.  This file
shallowly embeds:

* the relational state touched by the mutating endpoints
  (business_info, menu_items, sales) as a `Store` record, with the
  handlers for POST /api/login, DELETE /api/menu-items/:id and
  PATCH /api/menu-items as explicit state-passing functions;
* the pure row-shaping logic of the read endpoints
  (GET /api/menu-items, /api/sales, /api/sales/last-year,
  /api/menu-counts, /api/business-info) as functions on the joined rows
  that the store returns.

JavaScript-level primitives that the handlers rely on are modelled
explicitly so that everything evaluates inside the kernel:

* JS string `<` / `>=` / `<=` compare code units; dates in this code are
  zero-padded ASCII `YYYY-MM-DD` strings, for which code-unit order,
  code-point order and scalar-value order agree.  We model the comparison
  as lexicographic order on `Char.toNat` (`strLtChars` / `jsLt` / `jsLe`).
* `String.prototype.split(',')` is modelled by `jsSplitComma` (splits at
  every comma, keeps empty components, yields `[""]` on `""`).
* `String.prototype.trim` is modelled by `jsTrim` (strips leading and
  trailing whitespace characters).
* `Array.prototype.sort(cmp)` is a stable sort by `cmp`; it is modelled
  by `List.insertionSort`, which is stable and structurally recursive.
* `localeCompare` is modelled as the total lexicographic order on
  strings: the proofs about sorting only use that it is a transitive,
  total comparison that distinguishes distinct category names.
* `bcrypt.compareSync` is an external primitive and is a parameter
  (`verify`) of the login model; store-side update failures in the batch
  PATCH are likewise a parameter (`errs`).
-/

/-! ## JavaScript string primitives -/

/-- Lexicographic (code-unit) comparison of two character lists, as JS
`<` on strings behaves for the ASCII data handled by this server. -/
def strLtChars : List Char → List Char → Bool
  | [], [] => false
  | [], _ :: _ => true
  | _ :: _, [] => false
  | a :: as, b :: bs =>
    if a.toNat < b.toNat then true
    else if b.toNat < a.toNat then false
    else strLtChars as bs

/-- JS `a < b` on strings. -/
def jsLt (a b : String) : Bool := strLtChars a.data b.data

/-- JS `a <= b` on strings (equivalently `¬ (b < a)` for a total order). -/
def jsLe (a b : String) : Bool := !(jsLt b a)

/-- Helper for `jsSplitComma`: `cur` holds the current component in
reverse; a comma closes the component. -/
def splitCommaAux : List Char → List Char → List String
  | cur, [] => [String.mk cur.reverse]
  | cur, c :: rest =>
    if c = ',' then String.mk cur.reverse :: splitCommaAux [] rest
    else splitCommaAux (c :: cur) rest

/-- JS `s.split(',')`: splits at every comma, keeps empty components,
and yields `[""]` for the empty string. -/
def jsSplitComma (s : String) : List String := splitCommaAux [] s.data

/-- Drop leading whitespace characters from a character list. -/
def trimLeadingWs : List Char → List Char
  | [] => []
  | c :: rest => if c.isWhitespace then trimLeadingWs rest else c :: rest

/-- JS `s.trim()`: strip whitespace from both ends. -/
def jsTrim (s : String) : String :=
  String.mk ((trimLeadingWs (trimLeadingWs s.data).reverse).reverse)

theorem strLtChars_asymm :
    ∀ as bs, strLtChars as bs = true → strLtChars bs as = false := by
  intro as
  induction as with
  | nil =>
    intro bs h
    cases bs with
    | nil => simp [strLtChars] at h
    | cons b bs => simp [strLtChars]
  | cons a as ih =>
    intro bs h
    cases bs with
    | nil => simp [strLtChars] at h
    | cons b bs =>
      by_cases hab : a.toNat < b.toNat
      · have hba : ¬ b.toNat < a.toNat := by omega
        simp [strLtChars, hab, hba]
      · by_cases hba : b.toNat < a.toNat
        · simp [strLtChars, hab, hba] at h
        · simp only [strLtChars, if_neg hab, if_neg hba] at h
          simp only [strLtChars, if_neg hba, if_neg hab]
          exact ih bs h

theorem strLtChars_antisymm :
    ∀ as bs, strLtChars as bs = false → strLtChars bs as = false → as = bs := by
  intro as
  induction as with
  | nil =>
    intro bs h₁ _
    cases bs with
    | nil => rfl
    | cons b bs => simp [strLtChars] at h₁
  | cons a as ih =>
    intro bs h₁ h₂
    cases bs with
    | nil => simp [strLtChars] at h₂
    | cons b bs =>
      by_cases hab : a.toNat < b.toNat
      · simp [strLtChars, hab] at h₁
      · by_cases hba : b.toNat < a.toNat
        · simp [strLtChars, hba, hab] at h₂
        · simp only [strLtChars, if_neg hab, if_neg hba] at h₁
          simp only [strLtChars, if_neg hba, if_neg hab] at h₂
          have hn : a.toNat = b.toNat := by omega
          have hc : a = b := Char.eq_of_val_eq (UInt32.toNat.inj hn)
          rw [hc, ih bs h₁ h₂]

theorem strLtChars_trans :
    ∀ as bs cs, strLtChars as bs = true → strLtChars bs cs = true →
      strLtChars as cs = true := by
  intro as
  induction as with
  | nil =>
    intro bs cs h₁ h₂
    cases bs with
    | nil => simp [strLtChars] at h₁
    | cons b bs =>
      cases cs with
      | nil => simp [strLtChars] at h₂
      | cons c cs => simp [strLtChars]
  | cons a as ih =>
    intro bs cs h₁ h₂
    cases bs with
    | nil => simp [strLtChars] at h₁
    | cons b bs =>
      cases cs with
      | nil => simp [strLtChars] at h₂
      | cons c cs =>
        by_cases hab : a.toNat < b.toNat
        · by_cases hbc : b.toNat < c.toNat
          · have hac : a.toNat < c.toNat := by omega
            simp [strLtChars, hac]
          · by_cases hcb : c.toNat < b.toNat
            · simp [strLtChars, hbc, hcb] at h₂
            · have hbc' : b.toNat = c.toNat := by omega
              have hac : a.toNat < c.toNat := by omega
              simp [strLtChars, hac]
        · by_cases hba : b.toNat < a.toNat
          · simp [strLtChars, hab, hba] at h₁
          · have hab' : a.toNat = b.toNat := by omega
            simp only [strLtChars, if_neg hab, if_neg hba] at h₁
            by_cases hbc : b.toNat < c.toNat
            · have hac : a.toNat < c.toNat := by omega
              simp [strLtChars, hac]
            · by_cases hcb : c.toNat < b.toNat
              · simp [strLtChars, hbc, hcb] at h₂
              · have hac : ¬ a.toNat < c.toNat := by omega
                have hca : ¬ c.toNat < a.toNat := by omega
                simp only [strLtChars, if_neg hbc, if_neg hcb] at h₂
                simp only [strLtChars, if_neg hac, if_neg hca]
                exact ih bs cs h₁ h₂

theorem jsLt_asymm (a b : String) (h : jsLt a b = true) : jsLt b a = false :=
  strLtChars_asymm a.data b.data h

theorem jsLt_antisymm (a b : String) (h₁ : jsLt a b = false)
    (h₂ : jsLt b a = false) : a = b := by
  have h : a.data = b.data := strLtChars_antisymm a.data b.data h₁ h₂
  cases a; cases b; exact congrArg String.mk h

theorem jsLt_trans (a b c : String) (h₁ : jsLt a b = true)
    (h₂ : jsLt b c = true) : jsLt a c = true :=
  strLtChars_trans a.data b.data c.data h₁ h₂

/-! ## Store-level data model

The relational state touched by the mutating endpoints.  Passwords are
stored hashed; the hash/verify primitive is external and appears as a
parameter of `login`. -/

/-- One row of the `business_info` table (src/server.js lines 58-68). -/
structure Business where
  id : Nat
  email : String
  password : String
  horeca_name : String
  manager_first_name : String
  manager_last_name : String
  address : String
deriving DecidableEq

/-- One row of the `menu_items` table: a product scoped to a business
with a price (src/server.js lines 326-330). -/
structure MenuItemRec where
  id_menu_item : Nat
  business_id : Nat
  product_id : Nat
  price : Int
deriving DecidableEq

/-- One row of the `sales` table (src/server.js lines 196-199, 371). -/
structure Sale where
  menu_item_id : Nat
  sold_at : String
deriving DecidableEq

/-- The mutable relational state reached by the embedded handlers. -/
structure Store where
  businesses : List Business
  menu_items : List MenuItemRec
  sales : List Sale
deriving DecidableEq

/-- Session payload written by a successful login
(src/server.js lines 118-124). -/
structure SessionUser where
  id : Nat
  email : String
  horeca_name : String
  manager_first_name : String
  manager_last_name : String
deriving DecidableEq

/-- Response body of POST /api/login. -/
inductive LoginBody where
  | failure (message : String)
  | ok (business_id : Nat) (horeca_name : String)
deriving DecidableEq

/-- Embeds POST /api/login (src/server.js lines 87-132) on an error-free
store.  `verify password hash` models `bcrypt.compareSync`; the
`.eq('email', email).maybeSingle()` query is the first row whose email
matches (emails are unique).  Result: HTTP status, body, and the session
established (`none` when no session is set). -/
def login (verify : String → String → Bool) (st : Store)
    (email password : String) : Nat × LoginBody × Option SessionUser :=
  match st.businesses.find? (fun b => b.email == email) with
  | none => (401, .failure "Invalid credentials", none)
  | some user =>
    if verify password user.password then
      (200, .ok user.id user.horeca_name,
        some ⟨user.id, user.email, user.horeca_name,
              user.manager_first_name, user.manager_last_name⟩)
    else (401, .failure "Invalid credentials", none)

/-- Embeds DELETE /api/menu-items/:id (src/server.js lines 190-225) on an
error-free store.  Mirrors the source order of operations: step 1 deletes
every `sales` row whose `menu_item_id` equals the path id (the source has
no business filter on this delete); step 2 deletes `menu_items` rows
matching both the path id and the session's business id, requesting an
exact count; a count of zero yields 404, otherwise 200. -/
def deleteMenuItem (st : Store) (businessId menuItemId : Nat) : Nat × Store :=
  let st1 : Store :=
    { st with sales := st.sales.filter (fun s => !(s.menu_item_id == menuItemId)) }
  let deleted := st1.menu_items.filter
    (fun mi => mi.id_menu_item == menuItemId && mi.business_id == businessId)
  let keep : MenuItemRec → Bool :=
    fun mi => !(mi.id_menu_item == menuItemId && mi.business_id == businessId)
  let st2 : Store := { st1 with menu_items := st1.menu_items.filter keep }
  if deleted.length == 0 then (404, st2) else (200, st2)

/-- The business owning a sale, through its menu item. -/
def saleOwner (st : Store) (s : Sale) : Option Nat :=
  (st.menu_items.find? (fun mi => mi.id_menu_item == s.menu_item_id)).map
    (fun mi => mi.business_id)

/-- One element of the `updates` array of PATCH /api/menu-items. -/
structure UpdateRow where
  id_menu_item : Nat
  price : Int
deriving DecidableEq

/-- Request payload of PATCH /api/menu-items: either `updates` is an
array, or it is anything else (`Array.isArray` fails). -/
inductive PatchPayload where
  | arr (updates : List UpdateRow)
  | nonArray
deriving DecidableEq

/-- Response body of PATCH /api/menu-items. -/
inductive PatchBody where
  | ok
  | invalidPayload
  | failedUpdating
deriving DecidableEq

/-- One store call of the PATCH loop:
`supabase.from('menu_items').update({price}).match({id_menu_item, business_id})`
sets the price on the rows matching both the update's id and the
session's business id. -/
def applyPriceUpdate (businessId : Nat) (st : Store) (u : UpdateRow) : Store :=
  { st with menu_items := st.menu_items.map (fun mi =>
      if mi.id_menu_item == u.id_menu_item && mi.business_id == businessId then
        { mi with price := u.price }
      else mi) }

/-- The sequential update loop of PATCH /api/menu-items
(src/server.js lines 238-248).  `errs u = true` models the external
store returning an error for that update call (e.g. a constraint
violation); the loop throws on the first error, keeping the updates
already applied.  Returns the store reached and whether every call
succeeded. -/
def runPriceUpdates (errs : UpdateRow → Bool) (businessId : Nat) :
    List UpdateRow → Store → Store × Bool
  | [], st => (st, true)
  | u :: rest, st =>
    if errs u then (st, false)
    else runPriceUpdates errs businessId rest (applyPriceUpdate businessId st u)

/-- Embeds PATCH /api/menu-items (src/server.js lines 228-253): a
non-array payload is rejected with 400 before any store call; otherwise
the updates run sequentially and the first failure aborts the loop with
a single 500 and no rollback. -/
def patchMenuItems (errs : UpdateRow → Bool) (st : Store) (businessId : Nat)
    (payload : PatchPayload) : Nat × PatchBody × Store :=
  match payload with
  | .nonArray => (400, .invalidPayload, st)
  | .arr updates =>
    let r := runPriceUpdates errs businessId updates st
    if r.2 then (200, .ok, r.1) else (500, .failedUpdating, r.1)

/-! ## Joined rows returned by the store to the read endpoints -/

/-- Nested `categories ( category_name )` join. -/
structure CategoryRow where
  category_name : String
deriving DecidableEq

/-- Nested `subcategories ( subcat_name )` join; the relation is nullable
on products. -/
structure SubcategoryRow where
  subcat_name : String
deriving DecidableEq

/-- Nested `sales(sold_at)` join entry. -/
structure SaleRow where
  sold_at : String
deriving DecidableEq

/-- Nested product join carried by a menu-item row.  Superset of the
projections the individual endpoints select; each handler reads only the
fields its own query projects. -/
structure ProductJoin where
  id_product : Nat
  id_category : Nat
  name : String
  brand : String
  production_city : String
  production_country : String
  is_trending : Bool
  is_high_margin : Bool
  eco_friendly : Bool
  season : Option String
  categories : CategoryRow
  subcategories : Option SubcategoryRow
deriving DecidableEq

/-- A joined menu-item row as returned by the store: menu item fields
with nested product (and its category/subcategory) and sales dates. -/
structure MenuItemJoin where
  id_menu_item : Nat
  price : Int
  created_at : String
  products : ProductJoin
  sales : List SaleRow
deriving DecidableEq

/-- Flattened view returned by GET /api/menu-items. -/
structure MenuItemView where
  id_menu_item : Nat
  price : Int
  created_at : String
  item_name : String
  producent : String
  category : String
  subcategory : String
deriving DecidableEq

/-- Embeds the flattening of GET /api/menu-items
(src/server.js lines 171-179); `mi.products.subcategories?.subcat_name ?? ''`
is `Option.map` followed by `getD ""`. -/
def shapeMenuItem (mi : MenuItemJoin) : MenuItemView :=
  { id_menu_item := mi.id_menu_item
    price := mi.price
    created_at := mi.created_at
    item_name := mi.products.name
    producent := mi.products.brand
    category := mi.products.categories.category_name
    subcategory := (mi.products.subcategories.map (fun s => s.subcat_name)).getD "" }

/-- Per-item statistics view returned by GET /api/sales
(src/server.js lines 393-409). -/
structure SalesStatView where
  id_menu_item : Nat
  item_name : String
  producent : String
  category : String
  subcategory : String
  price : Int
  created_at : String
  total_sold : Nat
  last_year_sold : Nat
  is_trending : Bool
  is_high_margin : Bool
  eco_friendly : Bool
  season : Option String
  prodCity : String
  prodCountry : String
deriving DecidableEq

/-- Embeds the per-row computation of GET /api/sales
(src/server.js lines 380-410): `total_sold` counts sales with
`'2025-01-01' <= sold_at <= '2025-12-31'`, `last_year_sold` the same for
2024; both year windows are hard-coded string literals in the source. -/
def shapeSalesStat (mi : MenuItemJoin) : SalesStatView :=
  let prod := mi.products
  let thisYear := (mi.sales.filter (fun s =>
    jsLe "2025-01-01" s.sold_at && jsLe s.sold_at "2025-12-31")).length
  let lastYear := (mi.sales.filter (fun s =>
    jsLe "2024-01-01" s.sold_at && jsLe s.sold_at "2024-12-31")).length
  { id_menu_item := mi.id_menu_item
    item_name := prod.name
    producent := prod.brand
    category := prod.categories.category_name
    subcategory := (prod.subcategories.map (fun s => s.subcat_name)).getD ""
    price := mi.price
    created_at := mi.created_at
    total_sold := thisYear
    last_year_sold := lastYear
    is_trending := prod.is_trending
    is_high_margin := prod.is_high_margin
    eco_friendly := prod.eco_friendly
    season := prod.season
    prodCity := prod.production_city
    prodCountry := prod.production_country }

/-- Embeds GET /api/sales (src/server.js lines 349-417).  The handler
never reads the clock; the `_currentYear` parameter stands for the
current system date every handler nominally runs under, so independence
from it can be stated. -/
def apiSales (_currentYear : Nat) (rows : List MenuItemJoin) : List SalesStatView :=
  rows.map shapeSalesStat

/-- Per-item view returned by GET /api/sales/last-year
(src/server.js lines 500-516); note the Dutch field names `subcategorie`,
`land`, `stad` and the single `total_sold` count. -/
structure LastYearStatView where
  id_menu_item : Nat
  id_category : Nat
  item_name : String
  producent : String
  category : String
  subcategorie : String
  price : Int
  created_at : String
  land : String
  stad : String
  total_sold : Nat
  is_trending : Bool
  is_high_margin : Bool
  eco_friendly : Bool
  season : String
deriving DecidableEq

/-- The per-row map body of GET /api/sales/last-year
(src/server.js lines 490-517), with the window bounds `start`/`stop`
passed in; `prod.season ?? 'Unknown'` is `Option.getD "Unknown"`. -/
def shapeLastYearStat (start stop : String) (mi : MenuItemJoin) : LastYearStatView :=
  let prod := mi.products
  { id_menu_item := mi.id_menu_item
    id_category := prod.id_category
    item_name := prod.name
    producent := prod.brand
    category := prod.categories.category_name
    subcategorie := (prod.subcategories.map (fun s => s.subcat_name)).getD ""
    price := mi.price
    created_at := mi.created_at
    land := prod.production_country
    stad := prod.production_city
    total_sold := (mi.sales.filter (fun s =>
      jsLe start s.sold_at && jsLe s.sold_at stop)).length
    is_trending := prod.is_trending
    is_high_margin := prod.is_high_margin
    eco_friendly := prod.eco_friendly
    season := prod.season.getD "Unknown" }

/-- Embeds GET /api/sales/last-year (src/server.js lines 452-528):
`lastYear = new Date().getFullYear() - 1`, one inclusive window
`[lastYear-01-01, lastYear-12-31]`, then
`stats.sort((a, b) => a.id_menu_item - b.id_menu_item)` — a stable
ascending sort on the menu item id, modelled by `insertionSort`. -/
def salesLastYear (currentYear : Nat) (rows : List MenuItemJoin) : List LastYearStatView :=
  let lastYear := currentYear - 1
  let start := toString lastYear ++ "-01-01"
  let stop := toString lastYear ++ "-12-31"
  let stats := rows.map (shapeLastYearStat start stop)
  stats.insertionSort (fun a b => a.id_menu_item ≤ b.id_menu_item)

/-- Number of sales whose date lies in the inclusive calendar window of
year `y`.  Written from the spec wording: "count of sales with date in
[referenceYear-01-01, referenceYear-12-31] inclusive". -/
def yearWindowCount (y : Nat) (sales : List SaleRow) : Nat :=
  (sales.filter (fun s =>
    jsLe (toString y ++ "-01-01") s.sold_at
      && jsLe s.sold_at (toString y ++ "-12-31"))).length

/-- Modelled from the spec, for comparison with `salesLastYear` under
claim C3 as amended: one view per input row, whose single `total_sold`
is the inclusive window count at the year before `currentYear`, the
descriptive product fields copied over and `season` defaulting to
"Unknown" when the product has none. -/
def lastYearSpecView (currentYear : Nat) (mi : MenuItemJoin) : LastYearStatView :=
  { id_menu_item := mi.id_menu_item
    id_category := mi.products.id_category
    item_name := mi.products.name
    producent := mi.products.brand
    category := mi.products.categories.category_name
    subcategorie := (mi.products.subcategories.map (fun s => s.subcat_name)).getD ""
    price := mi.price
    created_at := mi.created_at
    land := mi.products.production_country
    stad := mi.products.production_city
    total_sold := yearWindowCount (currentYear - 1) mi.sales
    is_trending := mi.products.is_trending
    is_high_margin := mi.products.is_high_margin
    eco_friendly := mi.products.eco_friendly
    season := mi.products.season.getD "Unknown" }

/-- Joined product of a GET /api/menu-counts row: only the category name
is projected. -/
structure MenuCountProd where
  categories : CategoryRow
deriving DecidableEq

/-- A row of the GET /api/menu-counts query. -/
structure MenuCountRow where
  id_menu_item : Nat
  products : MenuCountProd
deriving DecidableEq

/-- The grouping key of a menu-counts row. -/
def rowCat (r : MenuCountRow) : String := r.products.categories.category_name

/-- One step of the `items.reduce` of GET /api/menu-counts
(src/server.js lines 616-620): `acc[cat] = (acc[cat] || 0) + 1` on a JS
object, modelled as an association list keyed in first-insertion order. -/
def bumpCount (acc : List (String × Nat)) (cat : String) : List (String × Nat) :=
  if acc.any (fun p => p.1 == cat) then
    acc.map (fun p => if p.1 == cat then (p.1, p.2 + 1) else p)
  else acc ++ [(cat, 1)]

/-- The `countsMap` object of GET /api/menu-counts. -/
def countsMap (rows : List MenuCountRow) : List (String × Nat) :=
  rows.foldl (fun acc mi => bumpCount acc (rowCat mi)) []

/-- Output entry of GET /api/menu-counts. -/
structure CategoryCount where
  category : String
  count_on_menu : Nat
deriving DecidableEq

/-- Embeds GET /api/menu-counts (src/server.js lines 595-633):
`Object.entries(countsMap)` mapped to `{category, count_on_menu}` and
stable-sorted by `a.category.localeCompare(b.category)`; the locale
comparison is modelled by the total lexicographic string order `jsLe`. -/
def menuCounts (rows : List MenuCountRow) : List CategoryCount :=
  let entries := (countsMap rows).map (fun p => CategoryCount.mk p.1 p.2)
  entries.insertionSort (fun a b => jsLe a.category b.category = true)

/-- Response body of GET /api/business-info. -/
structure CityCountry where
  city : String
  country : String
deriving DecidableEq

/-- Embeds the address parse of GET /api/business-info
(src/server.js lines 439-443): split the address on commas, trim every
part, city is the last part when there are at least two parts and the
empty string otherwise, country is always empty.
(`parts[parts.length-1]` on the non-empty split result is its last
element.) -/
def splitAddress (address : String) : CityCountry :=
  let parts := (jsSplitComma address).map jsTrim
  let city := if parts.length > 1 then parts.getLast?.getD "" else ""
  { city := city, country := "" }

/-! ## Concrete fixtures used by closed theorems and witnesses -/

/-- Business with id 1. -/
def bizA : Business :=
  ⟨1, "a@example.com", "hashA", "Cafe A", "Ann", "Ames", "Main St 1, Atown"⟩

/-- Business with id 2. -/
def bizB : Business :=
  ⟨2, "b@example.com", "hashB", "Cafe B", "Bob", "Bell", "Main St 2, Btown"⟩

/-- Store in which menu item 5 belongs to business 2 and has one sale. -/
def crossStore : Store :=
  { businesses := [bizA, bizB]
    menu_items := [⟨5, 2, 1, 10⟩]
    sales := [⟨5, "2025-03-03"⟩] }

/-! ## Claims C1 and C2: DELETE /api/menu-items/:id -/

/-- Claim C1 (code bug): tenant scoping fails on DELETE.  In the source
(src/server.js lines 196-199) the sales delete filters only on
`menu_item_id` and runs before the ownership-checked menu_items delete;
so a request authenticated as business 1 against menu item 5, which is
owned by business 2, removes business 2's sale even though the handler
then answers 404.  The sale's owner is business 2, the sale is present
initially, and it is gone afterwards. -/
theorem delete_cross_tenant_sale_removed :
    saleOwner crossStore (Sale.mk 5 "2025-03-03") = some 2 ∧
    Sale.mk 5 "2025-03-03" ∈ crossStore.sales ∧
    (deleteMenuItem crossStore 1 5).1 = 404 ∧
    (deleteMenuItem crossStore 1 5).2.sales = [] := by decide

/-- Claim C2 (code bug): DELETE of a menu item not owned by the session's
business answers 404 but does not leave the stored state unchanged: the
target item's sales rows are deleted before the ownership check, so the
resulting store differs from the initial one. -/
theorem delete_not_owned_404_mutates_state :
    deleteMenuItem crossStore 1 5 = (404, { crossStore with sales := [] }) ∧
    ({ crossStore with sales := [] } : Store) ≠ crossStore := by decide

/-! ## Claim C9: GET /api/business-info address parse -/

/-- Claim C9 (confirmed): for every address string the parsed city is the
trimmed last comma-separated component when the address splits into more
than one component and the empty string otherwise, and the country is
always the empty string; in particular "Main St 5, Springfield" yields
city "Springfield" and "NoCommaHere" yields the empty city. -/
theorem splitAddress_city_country :
    (∀ address : String,
      splitAddress address =
        { city :=
            if (jsSplitComma address).length > 1 then
              jsTrim ((jsSplitComma address).getLast?.getD "")
            else ""
          country := "" }) ∧
    splitAddress "Main St 5, Springfield" = { city := "Springfield", country := "" } ∧
    splitAddress "NoCommaHere" = { city := "", country := "" } := by
  refine ⟨fun address => ?_, by decide, by decide⟩
  unfold splitAddress
  simp only [List.length_map, List.getLast?_map]
  cases h : (jsSplitComma address).getLast? with
  | none => simp [h, (by decide : jsTrim "" = "")]
  | some x => simp [h]

/-! ## Claim C7: null subcategory flattening -/

/-- Claim C7 (confirmed): a menu item row whose product has no
subcategory relation flattens to the empty-string subcategory in both
GET /api/menu-items and GET /api/sales, and a present subcategory
carries its name through unchanged. -/
theorem subcategory_defaults_to_empty (mi : MenuItemJoin) :
    (mi.products.subcategories = none →
      (shapeMenuItem mi).subcategory = "" ∧ (shapeSalesStat mi).subcategory = "") ∧
    (∀ s, mi.products.subcategories = some s →
      (shapeMenuItem mi).subcategory = s.subcat_name ∧
      (shapeSalesStat mi).subcategory = s.subcat_name) := by
  constructor
  · intro h
    constructor
    · simp [shapeMenuItem, h]
    · simp [shapeSalesStat, h]
  · intro s h
    constructor
    · simp [shapeMenuItem, h]
    · simp [shapeSalesStat, h]

/-- Joined row whose product has a null subcategory. -/
def subNoneRow : MenuItemJoin :=
  { id_menu_item := 1
    price := 5
    created_at := "2025-01-02"
    products :=
      { id_product := 1
        id_category := 1
        name := "Cola"
        brand := "Acme"
        production_city := "Gent"
        production_country := "BE"
        is_trending := true
        is_high_margin := false
        eco_friendly := true
        season := some "summer"
        categories := ⟨"Drinks"⟩
        subcategories := none }
    sales := [] }

/-- The same row with a present subcategory. -/
def subSomeRow : MenuItemJoin :=
  { subNoneRow with
    products := { subNoneRow.products with subcategories := some ⟨"Soda"⟩ } }

/-- Witness for claim C7 at concrete rows: the null-subcategory row
flattens to "" on both endpoints, the present one to its name. -/
theorem subcategory_defaults_to_empty_witness :
    (shapeMenuItem subNoneRow).subcategory = "" ∧
    (shapeSalesStat subNoneRow).subcategory = "" ∧
    (shapeMenuItem subSomeRow).subcategory = "Soda" :=
  ⟨((subcategory_defaults_to_empty subNoneRow).1 rfl).1,
   ((subcategory_defaults_to_empty subNoneRow).1 rfl).2,
   ((subcategory_defaults_to_empty subSomeRow).2 ⟨"Soda"⟩ rfl).1⟩

/-! ## Claim C10: POST /api/login failure uniformity -/

/-- Claim C10 (confirmed): whether the email is absent from the store or
present with a non-matching password, login answers with status 401, the
very same body, and no session is established — so the response does not
reveal whether the email exists. -/
theorem login_uniform_failure (verify : String → String → Bool) (st : Store)
    (email password : String) :
    (st.businesses.find? (fun b => b.email == email) = none →
      login verify st email password = (401, .failure "Invalid credentials", none)) ∧
    (∀ u, st.businesses.find? (fun b => b.email == email) = some u →
      verify password u.password = false →
      login verify st email password = (401, .failure "Invalid credentials", none)) := by
  constructor
  · intro h
    simp [login, h]
  · intro u h hv
    simp [login, h, hv]

/-- Witness for claim C10: in `crossStore`, a login with an unknown email
and a login with business 1's email but the wrong password produce the
identical 401 response and no session. -/
theorem login_uniform_failure_witness :
    login (fun p h => p == h) crossStore "missing@example.com" "pw" =
      (401, .failure "Invalid credentials", none) ∧
    login (fun p h => p == h) crossStore "a@example.com" "wrong" =
      (401, .failure "Invalid credentials", none) :=
  ⟨(login_uniform_failure (fun p h => p == h) crossStore "missing@example.com" "pw").1
      (by decide),
   (login_uniform_failure (fun p h => p == h) crossStore "a@example.com" "wrong").2
      bizA (by decide) (by decide)⟩

/-! ## Claim C5: PATCH /api/menu-items batch semantics -/

/-- Running the update loop past an error-free prefix applies exactly
those updates in order and continues on the rest. -/
theorem runPriceUpdates_ok_prefix (errs : UpdateRow → Bool) (bid : Nat) :
    ∀ (pre rest : List UpdateRow) (st : Store),
      (∀ v ∈ pre, errs v = false) →
      runPriceUpdates errs bid (pre ++ rest) st =
        runPriceUpdates errs bid rest (pre.foldl (applyPriceUpdate bid) st) := by
  intro pre
  induction pre with
  | nil => intro rest st _; rfl
  | cons u pre ih =>
    intro rest st h
    have hu : errs u = false := h u (by simp)
    simp only [List.cons_append, runPriceUpdates, hu, Bool.false_eq_true, if_false,
      List.foldl_cons]
    exact ih rest (applyPriceUpdate bid st u) (fun v hv => h v (by simp [hv]))

/-- Claim C5 (confirmed): a non-array payload yields 400 with the store
untouched; an array runs its updates sequentially in input order, an
all-successful run commits every update with 200, and a failure at any
position aborts with a single constant 500 body while the updates
already applied stay applied — no rollback, and the response does not
say which updates succeeded. -/
theorem patchMenuItems_sequential_no_rollback (errs : UpdateRow → Bool)
    (st : Store) (businessId : Nat) :
    patchMenuItems errs st businessId .nonArray = (400, .invalidPayload, st) ∧
    (∀ updates, (∀ v ∈ updates, errs v = false) →
      patchMenuItems errs st businessId (.arr updates) =
        (200, .ok, updates.foldl (applyPriceUpdate businessId) st)) ∧
    (∀ pre u post, (∀ v ∈ pre, errs v = false) → errs u = true →
      patchMenuItems errs st businessId (.arr (pre ++ u :: post)) =
        (500, .failedUpdating, pre.foldl (applyPriceUpdate businessId) st)) := by
  refine ⟨rfl, ?_, ?_⟩
  · intro updates h
    have hrun := runPriceUpdates_ok_prefix errs businessId updates [] st h
    simp only [List.append_nil] at hrun
    simp [patchMenuItems, hrun, runPriceUpdates]
  · intro pre u post hpre hu
    have hrun := runPriceUpdates_ok_prefix errs businessId pre (u :: post) st hpre
    simp [patchMenuItems, hrun, runPriceUpdates, hu]

/-- Store with two menu items of business 1, used by the PATCH witness. -/
def patchStore : Store :=
  { businesses := [bizA]
    menu_items := [⟨1, 1, 1, 10⟩, ⟨2, 1, 2, 20⟩]
    sales := [] }

/-- Failure model for the PATCH witness: the store rejects negative
prices. -/
def errsNegPrice : UpdateRow → Bool := fun u => decide (u.price < 0)

/-- Witness for claim C5: the batch `[{id 1, price 5}, {id 2, price -1}]`
fails on its second update; the response is the constant 500 and the
first update stays applied (item 1 now costs 5, item 2 keeps 20), and a
non-array payload is answered 400 with the store untouched. -/
theorem patchMenuItems_sequential_no_rollback_witness :
    patchMenuItems errsNegPrice patchStore 1 (.arr [⟨1, 5⟩, ⟨2, -1⟩]) =
      (500, .failedUpdating, [UpdateRow.mk 1 5].foldl (applyPriceUpdate 1) patchStore) ∧
    [UpdateRow.mk 1 5].foldl (applyPriceUpdate 1) patchStore =
      { patchStore with menu_items := [⟨1, 1, 1, 5⟩, ⟨2, 1, 2, 20⟩] } ∧
    patchMenuItems errsNegPrice patchStore 1 .nonArray =
      (400, .invalidPayload, patchStore) :=
  ⟨(patchMenuItems_sequential_no_rollback errsNegPrice patchStore 1).2.2
      [⟨1, 5⟩] ⟨2, -1⟩ [] (by decide) (by decide),
   by decide,
   (patchMenuItems_sequential_no_rollback errsNegPrice patchStore 1).1⟩

/-! ## Claim C6: GET /api/sales fixed year windows -/

/-- Claim C6 (confirmed): the /api/sales statistics are computed with the
hard-coded inclusive windows 2025 (for `total_sold`) and 2024 (for
`last_year_sold`), independent of the current system year, and sales
dated exactly on the window boundaries 2025-01-01 and 2025-12-31 are
counted as included. -/
theorem apiSales_fixed_windows (y₁ y₂ : Nat) (rows : List MenuItemJoin)
    (mi : MenuItemJoin) :
    apiSales y₁ rows = apiSales y₂ rows ∧
    apiSales y₁ rows = rows.map shapeSalesStat ∧
    (shapeSalesStat mi).total_sold = yearWindowCount 2025 mi.sales ∧
    (shapeSalesStat mi).last_year_sold = yearWindowCount 2024 mi.sales ∧
    (shapeSalesStat { mi with sales :=
        [⟨"2025-01-01"⟩, ⟨"2025-12-31"⟩, ⟨"2024-12-31"⟩, ⟨"2026-01-01"⟩] }).total_sold
      = 2 := by
  have h25a : (toString (2025 : Nat) ++ "-01-01") = "2025-01-01" := by decide
  have h25b : (toString (2025 : Nat) ++ "-12-31") = "2025-12-31" := by decide
  have h24a : (toString (2024 : Nat) ++ "-01-01") = "2024-01-01" := by decide
  have h24b : (toString (2024 : Nat) ++ "-12-31") = "2024-12-31" := by decide
  refine ⟨rfl, rfl, ?_, ?_, rfl⟩
  · simp only [shapeSalesStat, yearWindowCount, h25a, h25b]
  · simp only [shapeSalesStat, yearWindowCount, h24a, h24b]

/-! ## Claim C3: GET /api/sales/last-year -/

theorem salesLastYear_eq_spec_sort (currentYear : Nat) (rows : List MenuItemJoin) :
    salesLastYear currentYear rows =
      (rows.map (lastYearSpecView currentYear)).insertionSort
        (fun a b => a.id_menu_item ≤ b.id_menu_item) := rfl

instance : IsTotal LastYearStatView (fun a b => a.id_menu_item ≤ b.id_menu_item) :=
  ⟨fun a b => Nat.le_total a.id_menu_item b.id_menu_item⟩

instance : IsTrans LastYearStatView (fun a b => a.id_menu_item ≤ b.id_menu_item) :=
  ⟨fun _ _ _ h₁ h₂ => Nat.le_trans h₁ h₂⟩

/-- Claim C3 as amended (proved): GET /api/sales/last-year emits, as a
permutation of one view per input menu item row, a single inclusive
window count `total_sold` at the year before the current system year
(no second count at year −2 exists in the output), with the descriptive
product fields copied over except that a null season becomes "Unknown",
and the output is sorted ascending by menu item id. -/
theorem salesLastYear_amended (currentYear : Nat) (rows : List MenuItemJoin) :
    List.Sorted (fun a b => a.id_menu_item ≤ b.id_menu_item)
      (salesLastYear currentYear rows) ∧
    (salesLastYear currentYear rows).Perm (rows.map (lastYearSpecView currentYear)) := by
  rw [salesLastYear_eq_spec_sort]
  exact ⟨List.sorted_insertionSort _ _, List.perm_insertionSort _ _⟩

/-- Product fixture for the last-year counterexample. -/
def lyProd : ProductJoin :=
  { id_product := 3
    id_category := 2
    name := "Stew"
    brand := "Oma"
    production_city := "Gent"
    production_country := "BE"
    is_trending := false
    is_high_margin := true
    eco_friendly := false
    season := some "winter"
    categories := ⟨"Food"⟩
    subcategories := some ⟨"Hot"⟩ }

/-- Row with one sale dated in the year before last (2024 when the
current year is 2026). -/
def lyRowWith : MenuItemJoin :=
  { id_menu_item := 7
    price := 4
    created_at := "2026-01-05"
    products := lyProd
    sales := [⟨"2024-06-15"⟩] }

/-- The same row with no sales at all. -/
def lyRowWithout : MenuItemJoin := { lyRowWith with sales := [] }

/-- The same row with a null season. -/
def lyRowNoSeason : MenuItemJoin :=
  { lyRowWith with products := { lyProd with season := none } }

/-- Claim C3 counterexample: with the current system year 2026 the claim
asserts sold counts covering both 2025 (year −1) and 2024 (year −2) and
descriptive fields merged unchanged.  But a sale dated 2024-06-15 — in
the year −2 window, as the `yearWindowCount` conjunct certifies — leaves
the endpoint's output completely unchanged, so no output field counts
the year −2 window; and a row with a null season is emitted with season
"Unknown" rather than the unchanged absent value. -/
theorem salesLastYear_counterexample :
    salesLastYear 2026 [lyRowWith] = salesLastYear 2026 [lyRowWithout] ∧
    lyRowWith.sales ≠ lyRowWithout.sales ∧
    yearWindowCount 2024 lyRowWith.sales = 1 ∧
    (salesLastYear 2026 [lyRowNoSeason]).map (fun v => v.season) = ["Unknown"] ∧
    lyRowNoSeason.products.season = none := by decide

/-! ## Claim C8: GET /api/menu-counts determinism -/

theorem bumpCount_spec (acc : List (String × Nat)) (f : String → Nat) (cat : String)
    (hnd : (acc.map Prod.fst).Nodup)
    (hmem : ∀ c n, (c, n) ∈ acc ↔ 0 < n ∧ n = f c) :
    ((bumpCount acc cat).map Prod.fst).Nodup ∧
    ∀ c n, (c, n) ∈ bumpCount acc cat ↔
      0 < n ∧ n = (if c = cat then f cat + 1 else f c) := by
  by_cases hany : acc.any (fun p => p.1 == cat) = true
  · obtain ⟨p0, hp0mem, hp0⟩ := List.any_eq_true.mp hany
    have hp0cat : p0.1 = cat := by simpa using hp0
    have hp0spec : 0 < p0.2 ∧ p0.2 = f p0.1 := (hmem p0.1 p0.2).mp hp0mem
    have hfcatpos : 0 < f cat := by rw [← hp0cat]; omega
    have hb : bumpCount acc cat =
        acc.map (fun p => if p.1 == cat then (p.1, p.2 + 1) else p) := by
      simp only [bumpCount, hany, if_true]
    constructor
    · rw [hb, List.map_map]
      have : (Prod.fst ∘ fun p : String × Nat =>
          if p.1 == cat then (p.1, p.2 + 1) else p) = Prod.fst := by
        funext p
        by_cases hp : p.1 = cat <;> simp [hp]
      rw [this]
      exact hnd
    · intro c n
      rw [hb, List.mem_map]
      constructor
      · rintro ⟨p, hpmem, hgp⟩
        by_cases hp : p.1 = cat
        · rw [if_pos (by simpa using hp)] at hgp
          have hc : p.1 = c := congrArg Prod.fst hgp
          have hn : p.2 + 1 = n := congrArg Prod.snd hgp
          have hps : 0 < p.2 ∧ p.2 = f p.1 := (hmem p.1 p.2).mp hpmem
          have hceq : c = cat := by rw [← hc, hp]
          rw [if_pos hceq]
          rw [← hp]
          omega
        · rw [if_neg (by simpa using hp)] at hgp
          have hc : p.1 = c := congrArg Prod.fst hgp
          have hn : p.2 = n := congrArg Prod.snd hgp
          have hceq : ¬ c = cat := by rw [← hc]; exact hp
          rw [if_neg hceq, ← hc, ← hn]
          exact (hmem p.1 p.2).mp hpmem
      · intro hcn
        by_cases hc : c = cat
        · rw [if_pos hc] at hcn
          refine ⟨p0, hp0mem, ?_⟩
          rw [if_pos hp0]
          have h1 : p0.1 = c := by rw [hp0cat, hc]
          have h2 : p0.2 + 1 = n := by
            have hp2 := hp0spec.2
            rw [hp0cat] at hp2
            omega
          rw [h1, h2]
        · rw [if_neg hc] at hcn
          refine ⟨(c, n), (hmem c n).mpr hcn, ?_⟩
          rw [if_neg (by simpa using hc)]
  · have hnone : ∀ p ∈ acc, p.1 ≠ cat := by
      intro p hp hcon
      exact hany (List.any_eq_true.mpr ⟨p, hp, by simp [hcon]⟩)
    have hfcat0 : f cat = 0 := by
      by_contra hf
      have : (cat, f cat) ∈ acc := (hmem cat (f cat)).mpr ⟨Nat.pos_of_ne_zero hf, rfl⟩
      exact hnone _ this rfl
    have hb : bumpCount acc cat = acc ++ [(cat, 1)] := by
      simp only [bumpCount]
      rw [if_neg hany]
    constructor
    · rw [hb, List.map_append]
      refine List.Nodup.append hnd (by simp) ?_
      intro a ha hb'
      have ha' : a = cat := by simpa using hb'
      obtain ⟨p, hp, hpa⟩ := List.mem_map.mp ha
      exact hnone p hp (by rw [hpa, ha'])
    · intro c n
      rw [hb, List.mem_append]
      by_cases hc : c = cat
      · subst hc
        rw [if_pos rfl]
        constructor
        · rintro (hmem' | hmem')
          · exact absurd rfl (hnone _ hmem')
          · have : n = 1 := by simpa using hmem'
            omega
        · rintro ⟨hpos, heq⟩
          right
          have : n = 1 := by omega
          simp [this]
      · rw [if_neg hc]
        constructor
        · rintro (hmem' | hmem')
          · exact (hmem c n).mp hmem'
          · exact absurd (by simpa using hmem' : c = cat ∧ n = 1).1 hc
        · intro hcn
          exact Or.inl ((hmem c n).mpr hcn)

theorem countsMap_fold_spec (rows : List MenuCountRow) :
    ∀ (acc : List (String × Nat)) (f : String → Nat),
      (acc.map Prod.fst).Nodup →
      (∀ c n, (c, n) ∈ acc ↔ 0 < n ∧ n = f c) →
      (((rows.foldl (fun a mi => bumpCount a (rowCat mi)) acc).map Prod.fst).Nodup ∧
        ∀ c n, (c, n) ∈ rows.foldl (fun a mi => bumpCount a (rowCat mi)) acc ↔
          0 < n ∧ n = f c + rows.countP (fun r => rowCat r == c)) := by
  induction rows with
  | nil =>
    intro acc f hnd hmem
    refine ⟨hnd, fun c n => ?_⟩
    simp only [List.foldl_nil, List.countP_nil, Nat.add_zero]
    exact hmem c n
  | cons r rows ih =>
    intro acc f hnd hmem
    obtain ⟨hnd', hmem'⟩ := bumpCount_spec acc f (rowCat r) hnd hmem
    obtain ⟨hnd'', hmem''⟩ := ih (bumpCount acc (rowCat r))
      (fun c => if c = rowCat r then f (rowCat r) + 1 else f c) hnd' hmem'
    refine ⟨hnd'', fun c n => ?_⟩
    rw [List.foldl_cons, hmem'' c n]
    have harith : (if c = rowCat r then f (rowCat r) + 1 else f c)
        + rows.countP (fun x => rowCat x == c)
        = f c + (r :: rows).countP (fun x => rowCat x == c) := by
      rw [List.countP_cons]
      by_cases hc : c = rowCat r
      · rw [if_pos hc, hc]
        simp only [beq_self_eq_true, if_true]
        omega
      · have hbeq : (rowCat r == c) = false := by
          simp only [beq_eq_false_iff_ne, ne_eq]
          exact fun h => hc h.symm
        rw [if_neg hc, hbeq]
        simp
    rw [harith]

theorem countsMap_spec (rows : List MenuCountRow) :
    ((countsMap rows).map Prod.fst).Nodup ∧
    ∀ c n, (c, n) ∈ countsMap rows ↔
      0 < n ∧ n = rows.countP (fun r => rowCat r == c) := by
  obtain ⟨h1, h2⟩ := countsMap_fold_spec rows [] (fun _ => 0)
    (by simp) (by intro c n; simp; omega)
  refine ⟨h1, fun c n => ?_⟩
  have := h2 c n
  simpa using this

theorem countsMap_perm (rows₁ rows₂ : List MenuCountRow) (h : rows₁.Perm rows₂) :
    (countsMap rows₁).Perm (countsMap rows₂) := by
  obtain ⟨hn₁, hm₁⟩ := countsMap_spec rows₁
  obtain ⟨hn₂, hm₂⟩ := countsMap_spec rows₂
  have hnd₁ : (countsMap rows₁).Nodup := hn₁.of_map
  have hnd₂ : (countsMap rows₂).Nodup := hn₂.of_map
  refine List.perm_of_nodup_nodup_toFinset_eq hnd₁ hnd₂ ?_
  ext p
  obtain ⟨c, n⟩ := p
  have hcount : rows₁.countP (fun r => rowCat r == c)
      = rows₂.countP (fun r => rowCat r == c) := h.countP_eq _
  simp only [List.mem_toFinset]
  rw [hm₁ c n, hm₂ c n, hcount]

instance : IsTotal CategoryCount (fun a b => jsLe a.category b.category = true) :=
  ⟨fun a b => by
    simp only [jsLe, Bool.not_eq_true']
    cases hx : jsLt b.category a.category with
    | false => exact Or.inl rfl
    | true => exact Or.inr (jsLt_asymm _ _ hx)⟩

instance : IsTrans CategoryCount (fun a b => jsLe a.category b.category = true) :=
  ⟨fun a b c h₁ h₂ => by
    simp only [jsLe, Bool.not_eq_true'] at h₁ h₂ ⊢
    cases hca : jsLt c.category a.category with
    | false => rfl
    | true =>
      cases hbc : jsLt b.category c.category with
      | false =>
        have heq : b.category = c.category := jsLt_antisymm _ _ hbc h₂
        rw [← heq] at hca
        rw [h₁] at hca
        exact absurd hca (by decide)
      | true =>
        have hba := jsLt_trans _ _ _ hbc hca
        rw [h₁] at hba
        exact absurd hba (by decide)⟩

instance : IsAntisymm CategoryCount (fun a b => jsLt a.category b.category = true) :=
  ⟨fun a b h₁ h₂ => by
    have ha := jsLt_asymm _ _ h₁
    rw [ha] at h₂
    exact absurd h₂ (by decide)⟩

theorem menuCounts_sorted_strict (rows : List MenuCountRow) :
    List.Sorted (fun a b : CategoryCount => jsLt a.category b.category = true)
      (menuCounts rows) := by
  have hs : List.Sorted (fun a b : CategoryCount => jsLe a.category b.category = true)
      (menuCounts rows) := List.sorted_insertionSort _ _
  have hkeysnd : ((menuCounts rows).map (fun v => v.category)).Nodup := by
    have hp : (menuCounts rows).Perm
        ((countsMap rows).map (fun p => CategoryCount.mk p.1 p.2)) :=
      List.perm_insertionSort _ _
    have hpm := hp.map (fun v : CategoryCount => v.category)
    rw [List.map_map] at hpm
    exact hpm.nodup_iff.mpr (countsMap_spec rows).1
  have hne : List.Pairwise (fun a b : CategoryCount => a.category ≠ b.category)
      (menuCounts rows) := List.pairwise_map.mp hkeysnd
  have hcomb := List.Pairwise.and hs hne
  refine hcomb.imp ?_
  rintro a b ⟨hle, hneq⟩
  simp only [jsLe, Bool.not_eq_true'] at hle
  cases hab : jsLt a.category b.category with
  | true => rfl
  | false => exact absurd (jsLt_antisymm _ _ hab hle) hneq

/-- Claim C8 (confirmed): GET /api/menu-counts is deterministic in the
input multiset — any two permutations of the same menu item rows
produce the identical output array, since grouping by category name is
order-insensitive up to permutation and the final sort by category name
canonicalizes the order of the distinct keys. -/
theorem menuCounts_deterministic (rows₁ rows₂ : List MenuCountRow)
    (h : rows₁.Perm rows₂) : menuCounts rows₁ = menuCounts rows₂ := by
  refine List.eq_of_perm_of_sorted ?_ (menuCounts_sorted_strict rows₁)
    (menuCounts_sorted_strict rows₂)
  have h₁p : (menuCounts rows₁).Perm
      ((countsMap rows₁).map (fun p => CategoryCount.mk p.1 p.2)) :=
    List.perm_insertionSort _ _
  have h₂p : (menuCounts rows₂).Perm
      ((countsMap rows₂).map (fun p => CategoryCount.mk p.1 p.2)) :=
    List.perm_insertionSort _ _
  have hmid := (countsMap_perm rows₁ rows₂ h).map (fun p => CategoryCount.mk p.1 p.2)
  exact (h₁p.trans hmid).trans h₂p.symm

/-- Menu-counts row in category "Drinks". -/
def mcRowDrinks : MenuCountRow := ⟨1, ⟨⟨"Drinks"⟩⟩⟩

/-- Menu-counts row in category "Food". -/
def mcRowFood : MenuCountRow := ⟨2, ⟨⟨"Food"⟩⟩⟩

/-- Witness for claim C8: swapping two concrete rows leaves the output
array unchanged, and that output evaluates to the category counts
sorted by name. -/
theorem menuCounts_deterministic_witness :
    menuCounts [mcRowDrinks, mcRowFood] = menuCounts [mcRowFood, mcRowDrinks] ∧
    menuCounts [mcRowDrinks, mcRowFood] =
      [⟨"Drinks", 1⟩, ⟨"Food", 1⟩] :=
  ⟨menuCounts_deterministic _ _ (List.Perm.swap mcRowFood mcRowDrinks []),
   by decide⟩
